import Mathlib

/-!
Shallow embedding of `src/mm/thp_utilization.c` (THP utilization scanner).

The C file maintains two global `struct thp_scan_info` records: `thp_scan`
(the in-progress scan cursor and histogram accumulator) and
`thp_scan_debugfs` (the published snapshot shown through debugfs).  A
delayed-work function `thp_utilization_workfn` fires periodically; each
firing either advances to the next memory zone (`thp_scan_next_zone`,
publishing the accumulated histogram when the zone list wraps) or scans up
to `THP_UTIL_SCAN_SIZE` huge-page-sized chunks of the current zone
(`thp_util_scan`).

Modelling conventions:
  * machine integers become `Nat`/`Int` with explicit `% 2^64` where the C
    code relies on `unsigned long` wrap-around, and an explicit 32-bit
    signed truncation where the C code narrows `thp_scan.pfn` into the
    `int current_pfn` local;
  * the global state becomes explicit state passing: `thp_scan` and
    `thp_scan_debugfs` are both values of `ThpScanInfo`, functions take them
    and return the updated pair;
  * the page-frame database collaborators (`next_zone`,
    `first_online_pgdat`, `zone_end_pfn`, `managed_zone`,
    `pfn_to_online_page`, `page_folio`, folio flag tests, `kmap_local_folio`
    content access) are modelled as an explicit zone list and a
    `Nat → Option Folio` memory map; page content is the page's list of
    bytes, and `memchr_inv(kaddr, 0, PAGE_SIZE) == NULL` becomes "every byte
    of the list is zero";
  * `ktime_get_ts64`/`timespec64` time values are modelled as a single
    `Int`-valued clock, `timespec64_sub` as subtraction.
-/

namespace ThpUtilization

/-- `#define THP_UTIL_BUCKET_NR 10` -/
def THP_UTIL_BUCKET_NR : Nat := 10

/-- `#define THP_UTIL_SCAN_SIZE 256` -/
def THP_UTIL_SCAN_SIZE : Nat := 256

/-- `HPAGE_PMD_NR`: pages per PMD-sized huge page (x86-64: 512). -/
def HPAGE_PMD_NR : Nat := 512

/-- `PAGE_SIZE` in bytes (x86-64: 4096). -/
def PAGE_SIZE : Nat := 4096

/-- `HPAGE_PMD_SIZE`: bytes per PMD-sized huge page, `HPAGE_PMD_NR * PAGE_SIZE`. -/
def HPAGE_PMD_SIZE : Nat := HPAGE_PMD_NR * PAGE_SIZE

/-- Modulus of the C `unsigned long` type (64-bit). -/
def UL_MOD : Nat := 2 ^ 64

/-- `struct thp_scan_info_bucket { int nr_thps; int nr_zero_pages; }` -/
structure ThpScanInfoBucket where
  nr_thps : Int
  nr_zero_pages : Int
deriving DecidableEq, Repr

/-- A memory zone, as much of `struct zone` as the scanner reads:
`zone_start_pfn`, `spanned_pages` (through `zone_end_pfn`) and
`managed_pages` (through `managed_zone`). -/
structure Zone where
  zone_start_pfn : Nat
  spanned_pages : Nat
  managed_pages : Nat
deriving DecidableEq, Repr

/-- `zone_end_pfn(zone) = zone->zone_start_pfn + zone->spanned_pages`. -/
def zone_end_pfn (z : Zone) : Nat := z.zone_start_pfn + z.spanned_pages

/-- `managed_zone(zone)`: the zone has managed pages. -/
def managed_zone (z : Zone) : Prop := z.managed_pages ≠ 0

instance (z : Zone) : Decidable (managed_zone z) := by
  unfold managed_zone; infer_instance

/-- A folio, as much of `struct folio` as the classifier reads: the
anon / large flags and the byte contents of its constituent pages
(`folio_nr_pages` is the length of `pages`). -/
structure Folio where
  isAnon : Bool
  isLarge : Bool
  pages : List (List Nat)
deriving DecidableEq, Repr

/-- `folio_test_anon(folio)` -/
def folio_test_anon (f : Folio) : Bool := f.isAnon

/-- `folio_test_large(folio)` -/
def folio_test_large (f : Folio) : Bool := f.isLarge

/-- `folio_nr_pages(folio)` -/
def folio_nr_pages (f : Folio) : Nat := f.pages.length

/-- `!memchr_inv(kaddr, 0, PAGE_SIZE)`: the mapped page is entirely zero. -/
def page_is_zero (page : List Nat) : Bool := page.all (fun b => b == 0)

/-- `struct thp_scan_info`.  The same structure backs both globals:
`thp_scan` (cursor + accumulator) and `thp_scan_debugfs` (published
snapshot).  `scan_zone` is an index into the zone list, `none` modelling a
NULL zone pointer; bucket lookup is a total function on indices, mirroring
array indexing. -/
structure ThpScanInfo where
  buckets : Nat → ThpScanInfoBucket
  scan_zone : Option Nat
  last_scan_duration : Int
  last_scan_time : Int
  pfn : Nat

/-- The all-zero bucket array (static initialisation / `memset(.., 0, ..)`). -/
def zeroBuckets : Nat → ThpScanInfoBucket := fun _ => ⟨0, 0⟩

/-- `zones[i]`, with an inert default zone for out-of-range indices. -/
def zoneAt (zones : List Zone) (i : Nat) : Zone := zones.getD i ⟨0, 0, 0⟩

/-- `next_zone(zone)`: the next zone in the global enumeration over all
nodes' zones, or `none` after the last one. -/
def next_zone (zones : List Zone) (i : Nat) : Option Nat :=
  if i + 1 < zones.length then some (i + 1) else none

/-- `static int thp_utilization_bucket(int num_utilized_pages)`:
`-1` out of range, else `min(num_utilized_pages * THP_UTIL_BUCKET_NR /
HPAGE_PMD_NR, THP_UTIL_BUCKET_NR - 1)`.  The division only happens on a
non-negative dividend, where C truncating division and Lean's `Int`
division agree. -/
def thp_utilization_bucket (num_utilized_pages : Int) : Int :=
  if num_utilized_pages < 0 ∨ (HPAGE_PMD_NR : Int) < num_utilized_pages then -1
  else min (num_utilized_pages * (THP_UTIL_BUCKET_NR : Int) / (HPAGE_PMD_NR : Int))
           ((THP_UTIL_BUCKET_NR : Int) - 1)

/-- `static int thp_number_utilized_pages(struct folio *folio)`: `-1` when
the folio pointer is NULL or the folio is not anon or not large; otherwise
start from `HPAGE_PMD_NR` and decrement once per all-zero constituent
page. -/
def thp_number_utilized_pages (folio : Option Folio) : Int :=
  match folio with
  | none => -1
  | some f =>
    if !folio_test_anon f || !folio_test_large f then -1
    else f.pages.foldl
      (fun thp_nr_utilized_pages kaddr =>
        if page_is_zero kaddr then thp_nr_utilized_pages - 1 else thp_nr_utilized_pages)
      (HPAGE_PMD_NR : Int)

/-- Narrowing of the `unsigned long` cursor into the C local
`int current_pfn` (32-bit signed truncation). -/
def toInt32 (n : Nat) : Int :=
  let m : Nat := n % 2 ^ 32
  if m < 2 ^ 31 then (m : Int) else (m : Int) - 2 ^ 32

/-- Conversion of a C `int` value back to `unsigned long`, as performed by
the usual arithmetic conversions in `current_pfn >= pfn_end` and by the
`unsigned long pfn` parameter of `pfn_to_online_page`. -/
def intToUL (i : Int) : Nat := (i % (UL_MOD : Int)).toNat

/-- The `unsigned long` value that a scan step actually compares and looks
up: the cursor narrowed to `int current_pfn` and converted back. -/
def scan_current (pfn : Nat) : Nat := intToUL (toInt32 pfn)

/-- `thp_scan.buckets[bucket].nr_thps++; thp_scan.buckets[bucket].nr_zero_pages
+= (HPAGE_PMD_NR - num_utilized_pages);` as a bucket-array update. -/
def bumpBucket (bs : Nat → ThpScanInfoBucket) (bucket : Nat) (num_utilized_pages : Int) :
    Nat → ThpScanInfoBucket :=
  fun j =>
    if j = bucket then
      ⟨(bs bucket).nr_thps + 1,
       (bs bucket).nr_zero_pages + ((HPAGE_PMD_NR : Int) - num_utilized_pages)⟩
    else bs j

/-- The loop body of `static void thp_util_scan(unsigned long pfn_end)`,
unrolled on the remaining fuel (`THP_UTIL_SCAN_SIZE - i`).  Besides the
final `thp_scan` state it returns the number of loop iterations executed
and the list of `(bucket, num_utilized_pages)` pairs recorded into the
accumulator, newest first. -/
def thp_util_scan_go (mem : Nat → Option Folio) (pfn_end : Nat) :
    Nat → ThpScanInfo → ThpScanInfo × Nat × List (Nat × Int)
  | 0, s => (s, 0, [])
  | fuel + 1, s =>
    let current_pfn := scan_current s.pfn
    let s1 : ThpScanInfo := { s with pfn := (s.pfn + HPAGE_PMD_NR) % UL_MOD }
    if pfn_end ≤ current_pfn then (s1, 1, [])
    else
      match mem current_pfn with
      | none =>
        let r := thp_util_scan_go mem pfn_end fuel s1
        (r.1, r.2.1 + 1, r.2.2)
      | some folio =>
        let num_utilized_pages := thp_number_utilized_pages (some folio)
        let bucket := thp_utilization_bucket num_utilized_pages
        if bucket < 0 then
          let r := thp_util_scan_go mem pfn_end fuel s1
          (r.1, r.2.1 + 1, r.2.2)
        else
          let s2 : ThpScanInfo :=
            { s1 with buckets := bumpBucket s1.buckets bucket.toNat num_utilized_pages }
          let r := thp_util_scan_go mem pfn_end fuel s2
          (r.1, r.2.1 + 1, (bucket.toNat, num_utilized_pages) :: r.2.2)

/-- `static void thp_util_scan(unsigned long pfn_end)`: run the scan loop
for `THP_UTIL_SCAN_SIZE` iterations. -/
def thp_util_scan (mem : Nat → Option Folio) (pfn_end : Nat) (s : ThpScanInfo) : ThpScanInfo :=
  (thp_util_scan_go mem pfn_end THP_UTIL_SCAN_SIZE s).1

/-- Number of loop iterations a `thp_util_scan` call executes. -/
def thp_util_scan_iters (mem : Nat → Option Folio) (pfn_end : Nat) (s : ThpScanInfo) : Nat :=
  (thp_util_scan_go mem pfn_end THP_UTIL_SCAN_SIZE s).2.1

/-- The `(bucket, num_utilized_pages)` pairs a `thp_util_scan` call records. -/
def thp_util_scan_recorded (mem : Nat → Option Folio) (pfn_end : Nat) (s : ThpScanInfo) :
    List (Nat × Int) :=
  (thp_util_scan_go mem pfn_end THP_UTIL_SCAN_SIZE s).2.2

/-- `static void thp_scan_next_zone(void)`: advance `thp_scan.scan_zone` to
`next_zone`, wrapping to the first zone of the first online node; reset the
cursor to `(zone_start_pfn + HPAGE_PMD_NR - 1) & ~(HPAGE_PMD_SIZE - 1)`
(note the C code masks a page-frame number with a byte-size mask); on wrap,
publish the accumulator into the debugfs snapshot and clear it.
Arguments: the zone list, the current clock value (`ktime_get_ts64`), the
`thp_scan` state and the `thp_scan_debugfs` state; returns the updated
pair. -/
def thp_scan_next_zone (zones : List Zone) (now : Int) (s d : ThpScanInfo) :
    ThpScanInfo × ThpScanInfo :=
  let nz := next_zone zones (s.scan_zone.getD 0)
  let update_debugfs := nz = none
  let newIdx := nz.getD 0
  let z := zoneAt zones newIdx
  let s1 : ThpScanInfo :=
    { s with
      scan_zone := some newIdx
      pfn := ((z.zone_start_pfn + HPAGE_PMD_NR - 1) % UL_MOD) / HPAGE_PMD_SIZE * HPAGE_PMD_SIZE }
  if update_debugfs then
    ({ s1 with buckets := zeroBuckets },
     { d with
       last_scan_duration := now - d.last_scan_time
       last_scan_time := now
       buckets := s1.buckets })
  else (s1, d)

/-- The NULL-check normalisation at the top of the work function:
`if (!thp_scan.scan_zone) thp_scan.scan_zone = (first_online_pgdat())->node_zones;` -/
def workfn_norm (s : ThpScanInfo) : ThpScanInfo :=
  if s.scan_zone = none then { s with scan_zone := some 0 } else s

/-- The zone the work function operates on this firing. -/
def workfn_zone (zones : List Zone) (s : ThpScanInfo) : Zone :=
  zoneAt zones ((workfn_norm s).scan_zone.getD 0)

/-- `static void thp_utilization_workfn(struct work_struct *work)`: one
firing of the delayed work.  Either advance to the next zone (when the
current zone is unmanaged or exhausted) or scan the next chunk of it.
The trailing `schedule_delayed_work` re-arming is the scheduling
collaborator and is not part of the state transition. -/
def thp_utilization_workfn (zones : List Zone) (mem : Nat → Option Folio) (now : Int)
    (s d : ThpScanInfo) : ThpScanInfo × ThpScanInfo :=
  let s0 := workfn_norm s
  let z := workfn_zone zones s
  let pfn_end := zone_end_pfn z
  if ¬ managed_zone z ∨ pfn_end ≤ s0.pfn then thp_scan_next_zone zones now s0 d
  else (thp_util_scan mem pfn_end s0, d)

/-- Following the spec's words for comparison: "that zone's first
HugeUnit-aligned frame, i.e. the zone's start frame rounded up to a
multiple of N" with `N = HPAGE_PMD_NR`. -/
def spec_first_huge_aligned_pfn (zone_start_pfn : Nat) : Nat :=
  (zone_start_pfn + HPAGE_PMD_NR - 1) / HPAGE_PMD_NR * HPAGE_PMD_NR

/-- Replaying a list of recorded `(bucket, num_utilized_pages)` pairs onto
a bucket array, oldest first. -/
def applyRecorded (bs : Nat → ThpScanInfoBucket) (units : List (Nat × Int)) :
    Nat → ThpScanInfoBucket :=
  units.foldl (fun acc p => bumpBucket acc p.1 p.2) bs

/-- Well-formedness of recorded pairs: the bucket index is in range and the
utilized count lies in `[0, HPAGE_PMD_NR]`. -/
def recordedValid (units : List (Nat × Int)) : Prop :=
  ∀ p ∈ units, p.1 < THP_UTIL_BUCKET_NR ∧ 0 ≤ p.2 ∧ p.2 ≤ (HPAGE_PMD_NR : Int)

/-- Number of recorded units that went into bucket `i`. -/
def countIdx (units : List (Nat × Int)) (i : Nat) : Nat :=
  (units.filter (fun p => p.1 == i)).length

/-- Sum of the utilized counts of the recorded units that went into bucket
`i`. -/
def sumUtil (units : List (Nat × Int)) (i : Nat) : Int :=
  ((units.filter (fun p => p.1 == i)).map (fun p => p.2)).sum

/-! ## Helper lemmas about the bucketizer -/

theorem thp_utilization_bucket_of_invalid (u : Int)
    (h : u < 0 ∨ (HPAGE_PMD_NR : Int) < u) : thp_utilization_bucket u = -1 := by
  unfold thp_utilization_bucket
  exact if_pos h

theorem thp_utilization_bucket_of_valid (u : Int) (h0 : 0 ≤ u)
    (h1 : u ≤ (HPAGE_PMD_NR : Int)) :
    thp_utilization_bucket u
      = min (u * (THP_UTIL_BUCKET_NR : Int) / (HPAGE_PMD_NR : Int))
            ((THP_UTIL_BUCKET_NR : Int) - 1) := by
  unfold thp_utilization_bucket
  rw [if_neg]
  push_neg
  exact ⟨h0, h1⟩

theorem thp_utilization_bucket_valid_nonneg (u : Int) (h0 : 0 ≤ u)
    (h1 : u ≤ (HPAGE_PMD_NR : Int)) : 0 ≤ thp_utilization_bucket u := by
  rw [thp_utilization_bucket_of_valid u h0 h1]
  refine le_min (Int.ediv_nonneg ?_ ?_) ?_
  · exact mul_nonneg h0 (by norm_num [THP_UTIL_BUCKET_NR])
  · norm_num [HPAGE_PMD_NR]
  · norm_num [THP_UTIL_BUCKET_NR]

theorem thp_utilization_bucket_natCast (n : Nat) (h : n ≤ HPAGE_PMD_NR) :
    thp_utilization_bucket (n : Int)
      = ((min (n * THP_UTIL_BUCKET_NR / HPAGE_PMD_NR) (THP_UTIL_BUCKET_NR - 1) : Nat) : Int) := by
  rw [thp_utilization_bucket_of_valid (n : Int) (Int.ofNat_nonneg n) (by exact_mod_cast h)]
  push_cast [Int.ofNat_ediv]
  norm_num [THP_UTIL_BUCKET_NR]

/-- Folding the classifier's decrement loop over a page list subtracts the
number of all-zero pages from the starting count. -/
theorem foldl_zero_dec (l : List (List Nat)) (a : Int) :
    l.foldl (fun acc kaddr => if page_is_zero kaddr then acc - 1 else acc) a
      = a - l.countP page_is_zero := by
  induction l generalizing a with
  | nil => simp
  | cons x xs ih =>
    rw [List.foldl_cons, ih, List.countP_cons]
    by_cases h : page_is_zero x
    · simp [h]; ring
    · simp [h]

/-- C4: `thp_utilization_bucket` returns `-1` exactly on inputs outside
`[0, HPAGE_PMD_NR]`; on inputs inside it returns the floor of
`u * THP_UTIL_BUCKET_NR / HPAGE_PMD_NR` clamped to `THP_UTIL_BUCKET_NR - 1`
(stated through exact natural-number floor division), and in particular
maps 0 to 0, 256 to 5, 511 to 9 and 512 to 9. -/
theorem bucketizer_invalid_iff_and_values :
    (∀ u : Int, thp_utilization_bucket u = -1 ↔ (u < 0 ∨ (HPAGE_PMD_NR : Int) < u))
    ∧ (∀ u : Int, 0 ≤ u → u ≤ (HPAGE_PMD_NR : Int) →
        thp_utilization_bucket u
          = ((min (u.toNat * THP_UTIL_BUCKET_NR / HPAGE_PMD_NR) (THP_UTIL_BUCKET_NR - 1) : Nat) : Int))
    ∧ thp_utilization_bucket 0 = 0 ∧ thp_utilization_bucket 256 = 5
    ∧ thp_utilization_bucket 511 = 9 ∧ thp_utilization_bucket 512 = 9 := by
  refine ⟨?_, ?_, by decide, by decide, by decide, by decide⟩
  · intro u
    constructor
    · intro h
      by_contra hc
      push_neg at hc
      have h0 := thp_utilization_bucket_valid_nonneg u hc.1 hc.2
      omega
    · exact thp_utilization_bucket_of_invalid u
  · intro u h0 h1
    have hu : u = ((u.toNat : Nat) : Int) := (Int.toNat_of_nonneg h0).symm
    rw [hu]
    exact thp_utilization_bucket_natCast u.toNat (by omega)

/-- Witness for `bucketizer_invalid_iff_and_values` at `u = 256`. -/
theorem bucketizer_invalid_iff_and_values_witness :
    thp_utilization_bucket 256
      = ((min ((256 : Int).toNat * THP_UTIL_BUCKET_NR / HPAGE_PMD_NR) (THP_UTIL_BUCKET_NR - 1) : Nat) : Int) :=
  bucketizer_invalid_iff_and_values.2.1 256 (by norm_num) (by norm_num [HPAGE_PMD_NR])

/-- C8: on `[0, HPAGE_PMD_NR]` the bucketizer lands in
`[0, THP_UTIL_BUCKET_NR - 1]` and is monotonically non-decreasing. -/
theorem bucketizer_range_and_mono :
    (∀ u : Int, 0 ≤ u → u ≤ (HPAGE_PMD_NR : Int) →
        0 ≤ thp_utilization_bucket u
        ∧ thp_utilization_bucket u ≤ (THP_UTIL_BUCKET_NR : Int) - 1)
    ∧ (∀ u v : Int, 0 ≤ u → u ≤ v → v ≤ (HPAGE_PMD_NR : Int) →
        thp_utilization_bucket u ≤ thp_utilization_bucket v) := by
  constructor
  · intro u h0 h1
    refine ⟨thp_utilization_bucket_valid_nonneg u h0 h1, ?_⟩
    rw [thp_utilization_bucket_of_valid u h0 h1]
    exact min_le_right _ _
  · intro u v h0 huv h1
    rw [thp_utilization_bucket_of_valid u h0 (le_trans huv h1),
        thp_utilization_bucket_of_valid v (le_trans h0 huv) h1]
    refine min_le_min ?_ le_rfl
    refine Int.ediv_le_ediv (by norm_num [HPAGE_PMD_NR]) ?_
    exact mul_le_mul_of_nonneg_right huv (by norm_num [THP_UTIL_BUCKET_NR])

/-- Witness for `bucketizer_range_and_mono` at `u = 100`, `v = 500`. -/
theorem bucketizer_range_and_mono_witness :
    0 ≤ thp_utilization_bucket 100
    ∧ thp_utilization_bucket 100 ≤ thp_utilization_bucket 500 :=
  ⟨(bucketizer_range_and_mono.1 100 (by norm_num) (by norm_num [HPAGE_PMD_NR])).1,
   bucketizer_range_and_mono.2 100 500 (by norm_num) (by norm_num) (by norm_num [HPAGE_PMD_NR])⟩

/-- C3: the classifier returns `-1` (not applicable) exactly when the folio
is absent, not anonymous, or not large; otherwise, for a unit of
`HPAGE_PMD_NR` constituent pages, it returns `HPAGE_PMD_NR` minus the
number of entirely-zero pages, a value within `[0, HPAGE_PMD_NR]`. -/
theorem classifier_not_applicable_iff_and_range :
    thp_number_utilized_pages none = -1
    ∧ (∀ f : Folio, f.pages.length = HPAGE_PMD_NR →
        ((thp_number_utilized_pages (some f) = -1
            ↔ (f.isAnon = false ∨ f.isLarge = false))
         ∧ (f.isAnon = true → f.isLarge = true →
              thp_number_utilized_pages (some f)
                  = (HPAGE_PMD_NR : Int) - f.pages.countP page_is_zero
              ∧ 0 ≤ thp_number_utilized_pages (some f)
              ∧ thp_number_utilized_pages (some f) ≤ (HPAGE_PMD_NR : Int)))) := by
  constructor
  · rfl
  · intro f hlen
    have hval : f.isAnon = true → f.isLarge = true →
        thp_number_utilized_pages (some f)
          = (HPAGE_PMD_NR : Int) - f.pages.countP page_is_zero := by
      intro ha hl
      unfold thp_number_utilized_pages
      simp only [folio_test_anon, folio_test_large, ha, hl, Bool.not_true, Bool.or_self,
        Bool.false_or, if_neg]
      exact foldl_zero_dec f.pages (HPAGE_PMD_NR : Int)
    have hcount : f.pages.countP page_is_zero ≤ HPAGE_PMD_NR := by
      rw [← hlen]; exact List.countP_le_length _
    constructor
    · constructor
      · intro h
        by_contra hc
        push_neg at hc
        obtain ⟨ha, hl⟩ := hc
        rw [Bool.ne_false_iff] at ha hl
        rw [hval ha hl] at h
        have : (f.pages.countP page_is_zero : Int) ≤ (HPAGE_PMD_NR : Int) := by
          exact_mod_cast hcount
        norm_num [HPAGE_PMD_NR] at h this
        omega
      · intro h
        unfold thp_number_utilized_pages
        rcases h with h | h <;> simp [folio_test_anon, folio_test_large, h]
    · intro ha hl
      refine ⟨hval ha hl, ?_, ?_⟩
      · rw [hval ha hl]
        have : (f.pages.countP page_is_zero : Int) ≤ (HPAGE_PMD_NR : Int) := by
          exact_mod_cast hcount
        omega
      · rw [hval ha hl]
        have : (0 : Int) ≤ (f.pages.countP page_is_zero : Int) := by positivity
        omega

/-- Witness for `classifier_not_applicable_iff_and_range` on a fully
populated anonymous large folio with one non-zero page. -/
theorem classifier_not_applicable_iff_and_range_witness :
    0 ≤ thp_number_utilized_pages (some ⟨true, true, [1] :: List.replicate 511 []⟩) :=
  ((classifier_not_applicable_iff_and_range.2 ⟨true, true, [1] :: List.replicate 511 []⟩
      (by rw [List.length_cons, List.length_replicate]; rfl)).2 rfl rfl).2.1

/-! ## Cursor alignment on zone entry (C2) and pass-completion publishing (C5) -/

/-- C2: for a zone starting at frame 1, `thp_scan_next_zone` sets the
cursor to frame 0 — the C code adds the page count `HPAGE_PMD_NR - 1` but
masks with the byte size `~(HPAGE_PMD_SIZE - 1)` — whereas the zone's first
HugeUnit-aligned frame is 512; the resulting cursor even lies below the
zone's start frame. -/
theorem next_zone_cursor_misaligned :
    (thp_scan_next_zone [⟨0, 1024, 1024⟩, ⟨1, 1024, 1024⟩] 0
        ⟨zeroBuckets, some 0, 0, 0, 0⟩ ⟨zeroBuckets, none, 0, 0, 0⟩).1.pfn = 0
    ∧ spec_first_huge_aligned_pfn 1 = 512
    ∧ (0 : Nat) ≠ 512
    ∧ (0 : Nat) < 1 := by
  refine ⟨rfl, by decide, by decide, by decide⟩

/-- C5: when `next_zone` wraps (the cursor moves past the last zone), the
firing records the pass duration as `now` minus the previous pass start
time, stamps the new pass start time `now`, copies the accumulator's
buckets into the debugfs snapshot, clears the accumulator, and returns the
cursor to the first zone of the first node. -/
theorem pass_complete_publishes :
    ∀ (zones : List Zone) (now : Int) (s d : ThpScanInfo),
      next_zone zones (s.scan_zone.getD 0) = none →
      (thp_scan_next_zone zones now s d).2.last_scan_duration = now - d.last_scan_time
      ∧ (thp_scan_next_zone zones now s d).2.last_scan_time = now
      ∧ (∀ i, (thp_scan_next_zone zones now s d).2.buckets i = s.buckets i)
      ∧ (∀ i, (thp_scan_next_zone zones now s d).1.buckets i = ⟨0, 0⟩)
      ∧ (thp_scan_next_zone zones now s d).1.scan_zone = some 0 := by
  intro zones now s d h
  unfold thp_scan_next_zone
  rw [h]
  simp [zeroBuckets]

/-- Witness for `pass_complete_publishes` on a one-zone system. -/
theorem pass_complete_publishes_witness :
    (thp_scan_next_zone [⟨0, 512, 512⟩] 7 ⟨zeroBuckets, some 0, 0, 3, 2048⟩
        ⟨zeroBuckets, none, 0, 4, 0⟩).2.last_scan_time = 7
    ∧ (thp_scan_next_zone [⟨0, 512, 512⟩] 7 ⟨zeroBuckets, some 0, 0, 3, 2048⟩
        ⟨zeroBuckets, none, 0, 4, 0⟩).1.buckets 5 = ⟨0, 0⟩ :=
  ⟨(pass_complete_publishes [⟨0, 512, 512⟩] 7 ⟨zeroBuckets, some 0, 0, 3, 2048⟩
      ⟨zeroBuckets, none, 0, 4, 0⟩ rfl).2.1,
   (pass_complete_publishes [⟨0, 512, 512⟩] 7 ⟨zeroBuckets, some 0, 0, 3, 2048⟩
      ⟨zeroBuckets, none, 0, 4, 0⟩ rfl).2.2.2.1 5⟩


theorem thp_utilization_bucket_le (u : Int) :
    thp_utilization_bucket u ≤ (THP_UTIL_BUCKET_NR : Int) - 1 := by
  unfold thp_utilization_bucket
  split
  · norm_num [THP_UTIL_BUCKET_NR]
  · exact min_le_right _ _

theorem thp_utilization_bucket_valid_range (u : Int)
    (h : ¬ thp_utilization_bucket u < 0) : 0 ≤ u ∧ u ≤ (HPAGE_PMD_NR : Int) := by
  unfold thp_utilization_bucket at h
  by_cases hc : u < 0 ∨ (HPAGE_PMD_NR : Int) < u
  · rw [if_pos hc] at h
    omega
  · push_neg at hc
    exact ⟨hc.1, hc.2⟩

theorem thp_util_scan_go_spec (mem : Nat → Option Folio) (pfn_end : Nat) :
    ∀ (fuel : Nat) (s : ThpScanInfo),
      (thp_util_scan_go mem pfn_end fuel s).2.1 ≤ fuel
      ∧ (thp_util_scan_go mem pfn_end fuel s).1.scan_zone = s.scan_zone
      ∧ (thp_util_scan_go mem pfn_end fuel s).1.buckets
          = applyRecorded s.buckets (thp_util_scan_go mem pfn_end fuel s).2.2
      ∧ (∀ p ∈ (thp_util_scan_go mem pfn_end fuel s).2.2,
          p.1 < THP_UTIL_BUCKET_NR ∧ 0 ≤ p.2 ∧ p.2 ≤ (HPAGE_PMD_NR : Int)) := by
  intro fuel
  induction fuel with
  | zero =>
    intro s
    simp [thp_util_scan_go, applyRecorded]
  | succ fuel ih =>
    intro s
    rw [thp_util_scan_go]
    simp only []
    split_ifs with hend
    · simp [applyRecorded]
    · cases hm : mem (scan_current s.pfn) with
      | none =>
        simp only [hm]
        obtain ⟨h1, h2, h3, h4⟩ := ih { s with pfn := (s.pfn + HPAGE_PMD_NR) % UL_MOD }
        exact ⟨by omega, h2, h3, h4⟩
      | some folio =>
        simp only [hm]
        split_ifs with hb
        · obtain ⟨h1, h2, h3, h4⟩ := ih { s with pfn := (s.pfn + HPAGE_PMD_NR) % UL_MOD }
          exact ⟨by dsimp only; omega, h2, h3, h4⟩
        · obtain ⟨h1, h2, h3, h4⟩ := ih
            { s with pfn := (s.pfn + HPAGE_PMD_NR) % UL_MOD,
                     buckets := bumpBucket s.buckets
                       (thp_utilization_bucket (thp_number_utilized_pages (some folio))).toNat
                       (thp_number_utilized_pages (some folio)) }
          refine ⟨by dsimp only; omega, h2, ?_, ?_⟩
          · rw [h3]
            rfl
          · intro p hp
            rcases List.mem_cons.mp hp with hp | hp
            · subst hp
              have hrange := thp_utilization_bucket_valid_range _ hb
              have hle := thp_utilization_bucket_le (thp_number_utilized_pages (some folio))
              refine ⟨?_, hrange.1, hrange.2⟩
              simp only [THP_UTIL_BUCKET_NR] at hle ⊢
              omega
            · exact h4 p hp

/-! ## Histogram accounting -/

theorem countIdx_cons (b : Nat) (u : Int) (rest : List (Nat × Int)) (i : Nat) :
    countIdx ((b, u) :: rest) i = (if b = i then 1 else 0) + countIdx rest i := by
  by_cases h : b = i <;> simp [countIdx, List.filter_cons, h] <;> omega

theorem sumUtil_cons (b : Nat) (u : Int) (rest : List (Nat × Int)) (i : Nat) :
    sumUtil ((b, u) :: rest) i = (if b = i then u else 0) + sumUtil rest i := by
  by_cases h : b = i <;> simp [sumUtil, List.filter_cons, h]

theorem applyRecorded_counts (units : List (Nat × Int)) :
    ∀ (bs : Nat → ThpScanInfoBucket) (i : Nat),
      (applyRecorded bs units i).nr_thps = (bs i).nr_thps + (countIdx units i : Int)
      ∧ (applyRecorded bs units i).nr_zero_pages
          = (bs i).nr_zero_pages
            + ((HPAGE_PMD_NR : Int) * countIdx units i - sumUtil units i) := by
  induction units with
  | nil =>
    intro bs i
    simp [applyRecorded, countIdx, sumUtil]
  | cons p rest ih =>
    intro bs i
    obtain ⟨b, u⟩ := p
    have h := ih (bumpBucket bs b u) i
    have hs : applyRecorded bs ((b, u) :: rest) = applyRecorded (bumpBucket bs b u) rest := rfl
    rw [hs, countIdx_cons, sumUtil_cons]
    by_cases hbi : b = i
    · subst hbi
      simp only [bumpBucket, eq_self_iff_true, if_true] at h
      rw [h.1, h.2]
      simp only [eq_self_iff_true, if_true]
      constructor <;> push_cast <;> ring
    · have hib : ¬ i = b := fun hc => hbi hc.symm
      simp only [bumpBucket, if_neg hib] at h
      rw [h.1, h.2, if_neg hbi, if_neg hbi]
      constructor <;> push_cast <;> ring

theorem sumUtil_bounds :
    ∀ units : List (Nat × Int), recordedValid units → ∀ i : Nat,
      0 ≤ sumUtil units i ∧ sumUtil units i ≤ (HPAGE_PMD_NR : Int) * countIdx units i := by
  intro units
  induction units with
  | nil =>
    intro _ i
    simp [sumUtil, countIdx]
  | cons p rest ih =>
    intro h i
    obtain ⟨b, u⟩ := p
    have hp := h (b, u) (List.mem_cons_self _ _)
    have hrest : recordedValid rest := fun q hq => h q (List.mem_cons_of_mem _ hq)
    have hr := ih hrest i
    rw [countIdx_cons, sumUtil_cons]
    simp only [HPAGE_PMD_NR] at hp hr ⊢
    by_cases hbi : b = i <;> simp only [if_pos, if_neg, hbi, ite_true, ite_false] <;>
      push_cast <;> omega

theorem countIdx_total :
    ∀ units : List (Nat × Int),
      (∀ p ∈ units, p.1 < THP_UTIL_BUCKET_NR) →
      (∑ i ∈ Finset.range THP_UTIL_BUCKET_NR, countIdx units i) = units.length := by
  intro units
  induction units with
  | nil =>
    intro _
    simp [countIdx]
  | cons p rest ih =>
    intro h
    obtain ⟨b, u⟩ := p
    have hb : b < THP_UTIL_BUCKET_NR := (h (b, u) (List.mem_cons_self _ _))
    have hrest := fun q hq => h q (List.mem_cons_of_mem _ hq)
    simp only [countIdx_cons]
    rw [Finset.sum_add_distrib, ih hrest, Finset.sum_ite_eq, if_pos (Finset.mem_range.mpr hb)]
    simp only [List.length_cons]
    omega

theorem applyRecorded_append (bs : Nat → ThpScanInfoBucket) (u1 u2 : List (Nat × Int)) :
    applyRecorded bs (u1 ++ u2) = applyRecorded (applyRecorded bs u1) u2 :=
  List.foldl_append _ _ _ _

/-! ## Claim theorems about the scan loop and the scheduler -/

/-- C1 (amended): each firing performs at most `THP_UTIL_SCAN_SIZE` loop
iterations; a scanning call never changes the current zone; and a firing
whose zone is managed and not yet exhausted (i.e. one that scans) leaves
the published debugfs snapshot untouched — so a firing never continues
across a zone boundary, whether or not the pass is complete. -/
theorem scan_quantum_bounded_and_zone_local :
    (∀ (mem : Nat → Option Folio) (pfn_end : Nat) (s : ThpScanInfo),
        thp_util_scan_iters mem pfn_end s ≤ THP_UTIL_SCAN_SIZE)
    ∧ (∀ (mem : Nat → Option Folio) (pfn_end : Nat) (s : ThpScanInfo),
        (thp_util_scan mem pfn_end s).scan_zone = s.scan_zone)
    ∧ (∀ (zones : List Zone) (mem : Nat → Option Folio) (now : Int) (s d : ThpScanInfo),
        managed_zone (workfn_zone zones s) →
        (workfn_norm s).pfn < zone_end_pfn (workfn_zone zones s) →
        (thp_utilization_workfn zones mem now s d).2 = d
        ∧ (thp_utilization_workfn zones mem now s d).1.scan_zone
            = (workfn_norm s).scan_zone) := by
  refine ⟨?_, ?_, ?_⟩
  · intro mem pfn_end s
    exact (thp_util_scan_go_spec mem pfn_end THP_UTIL_SCAN_SIZE s).1
  · intro mem pfn_end s
    exact (thp_util_scan_go_spec mem pfn_end THP_UTIL_SCAN_SIZE s).2.1
  · intro zones mem now s d hman hend
    unfold thp_utilization_workfn
    rw [if_neg (by push_neg; exact ⟨hman, hend⟩)]
    exact ⟨rfl, (thp_util_scan_go_spec mem _ THP_UTIL_SCAN_SIZE _).2.1⟩

/-- Witness for `scan_quantum_bounded_and_zone_local`: a managed,
non-exhausted single-zone configuration. -/
theorem scan_quantum_bounded_and_zone_local_witness :
    (thp_utilization_workfn [⟨0, 1024, 1024⟩] (fun _ => none) 9
        ⟨zeroBuckets, some 0, 0, 0, 0⟩ ⟨zeroBuckets, none, 0, 0, 0⟩).2
      = ⟨zeroBuckets, none, 0, 0, 0⟩ :=
  (scan_quantum_bounded_and_zone_local.2.2 [⟨0, 1024, 1024⟩] (fun _ => none) 9
      ⟨zeroBuckets, some 0, 0, 0, 0⟩ ⟨zeroBuckets, none, 0, 0, 0⟩
      (by decide) (by decide)).1

/-- C1 (counterexample to the claim as stated): with two zones of 1024
frames each and no online pages, a firing from the start of zone 0
executes only 3 of the 256 quantum iterations, stops at zone 0's boundary
(cursor 1536, far below zone 1's start), leaves the zone pointer on zone 0
and publishes nothing — it stops early even though the pass is not
complete, instead of continuing across the zone boundary. -/
theorem scan_stops_at_zone_boundary_without_pass_completion :
    thp_util_scan_iters (fun _ => none) 1024 ⟨zeroBuckets, some 0, 0, 0, 0⟩ = 3
    ∧ (3 : Nat) < THP_UTIL_SCAN_SIZE
    ∧ (thp_utilization_workfn [⟨0, 1024, 1024⟩, ⟨2097152, 1024, 1024⟩] (fun _ => none) 100
         ⟨zeroBuckets, some 0, 0, 0, 0⟩ ⟨zeroBuckets, none, 0, 0, 0⟩).1.pfn = 1536
    ∧ (1536 : Nat) < 2097152
    ∧ (thp_utilization_workfn [⟨0, 1024, 1024⟩, ⟨2097152, 1024, 1024⟩] (fun _ => none) 100
         ⟨zeroBuckets, some 0, 0, 0, 0⟩ ⟨zeroBuckets, none, 0, 0, 0⟩).1.scan_zone = some 0
    ∧ (thp_utilization_workfn [⟨0, 1024, 1024⟩, ⟨2097152, 1024, 1024⟩] (fun _ => none) 100
         ⟨zeroBuckets, some 0, 0, 0, 0⟩ ⟨zeroBuckets, none, 0, 0, 0⟩).2.last_scan_time = 0 := by
  refine ⟨rfl, by decide, rfl, by decide, rfl, rfl⟩

/-- C7: a scan step whose frame has no online page, or whose classification
does not yield a valid bucket, leaves every bucket untouched and records
nothing; the continuation starts from a state identical except for the
cursor, which still advances by one `HPAGE_PMD_NR`. -/
theorem skip_step_leaves_buckets_and_advances :
    ∀ (mem : Nat → Option Folio) (pfn_end fuel : Nat) (s : ThpScanInfo),
      scan_current s.pfn < pfn_end →
      (mem (scan_current s.pfn) = none
        ∨ thp_utilization_bucket (thp_number_utilized_pages (mem (scan_current s.pfn))) < 0) →
      thp_util_scan_go mem pfn_end (fuel + 1) s
        = ((thp_util_scan_go mem pfn_end fuel
              { s with pfn := (s.pfn + HPAGE_PMD_NR) % UL_MOD }).1,
           (thp_util_scan_go mem pfn_end fuel
              { s with pfn := (s.pfn + HPAGE_PMD_NR) % UL_MOD }).2.1 + 1,
           (thp_util_scan_go mem pfn_end fuel
              { s with pfn := (s.pfn + HPAGE_PMD_NR) % UL_MOD }).2.2)
      ∧ ({ s with pfn := (s.pfn + HPAGE_PMD_NR) % UL_MOD } : ThpScanInfo).buckets
          = s.buckets := by
  intro mem pfn_end fuel s h1 h2
  refine ⟨?_, rfl⟩
  rw [thp_util_scan_go]
  simp only []
  rw [if_neg (not_le.mpr h1)]
  cases hm : mem (scan_current s.pfn) with
  | none => simp only [hm]
  | some folio =>
    rw [hm] at h2
    rcases h2 with h2 | h2
    · exact absurd h2 (by simp)
    · simp only [hm]
      rw [if_pos h2]

/-- Witness for `skip_step_leaves_buckets_and_advances` with no online
pages at all. -/
theorem skip_step_leaves_buckets_and_advances_witness :
    thp_util_scan_go (fun _ => none) 1024 (7 + 1) ⟨zeroBuckets, some 0, 0, 0, 0⟩
      = ((thp_util_scan_go (fun _ => none) 1024 7
            { (⟨zeroBuckets, some 0, 0, 0, 0⟩ : ThpScanInfo) with
                pfn := (0 + HPAGE_PMD_NR) % UL_MOD }).1,
         (thp_util_scan_go (fun _ => none) 1024 7
            { (⟨zeroBuckets, some 0, 0, 0, 0⟩ : ThpScanInfo) with
                pfn := (0 + HPAGE_PMD_NR) % UL_MOD }).2.1 + 1,
         (thp_util_scan_go (fun _ => none) 1024 7
            { (⟨zeroBuckets, some 0, 0, 0, 0⟩ : ThpScanInfo) with
                pfn := (0 + HPAGE_PMD_NR) % UL_MOD }).2.2) :=
  (skip_step_leaves_buckets_and_advances (fun _ => none) 1024 7
      ⟨zeroBuckets, some 0, 0, 0, 0⟩ (by decide) (Or.inl rfl)).1

/-- C6: if the accumulator's buckets equal the replay of some valid list of
recorded units onto an all-zero array (as they do at pass start with the
empty list), then after a further scan call they equal the replay of the
extended list, still valid; and for any valid replayed state, each bucket's
zero-page count equals `HPAGE_PMD_NR` times its unit count minus the sum of
its units' utilized counts, is non-negative, and the unit counts over all
`THP_UTIL_BUCKET_NR` buckets total the number of validly classified
units. -/
theorem histogram_pass_invariant :
    ∀ (mem : Nat → Option Folio) (pfn_end : Nat) (s : ThpScanInfo)
      (units : List (Nat × Int)),
      recordedValid units →
      s.buckets = applyRecorded zeroBuckets units →
      recordedValid (units ++ thp_util_scan_recorded mem pfn_end s)
      ∧ (thp_util_scan mem pfn_end s).buckets
          = applyRecorded zeroBuckets (units ++ thp_util_scan_recorded mem pfn_end s)
      ∧ (∀ us : List (Nat × Int), recordedValid us → ∀ i : Nat,
            (applyRecorded zeroBuckets us i).nr_zero_pages
              = (HPAGE_PMD_NR : Int) * (applyRecorded zeroBuckets us i).nr_thps - sumUtil us i
            ∧ 0 ≤ (applyRecorded zeroBuckets us i).nr_zero_pages)
      ∧ (∀ us : List (Nat × Int),
            (∀ p ∈ us, p.1 < THP_UTIL_BUCKET_NR) →
            (∑ i ∈ Finset.range THP_UTIL_BUCKET_NR,
                (applyRecorded zeroBuckets us i).nr_thps) = us.length) := by
  intro mem pfn_end s units hval hbk
  have hgo := thp_util_scan_go_spec mem pfn_end THP_UTIL_SCAN_SIZE s
  refine ⟨?_, ?_, ?_, ?_⟩
  · intro p hp
    rcases List.mem_append.mp hp with hp | hp
    · exact hval p hp
    · exact hgo.2.2.2 p hp
  · rw [applyRecorded_append, ← hbk]
    exact hgo.2.2.1
  · intro us hus i
    have hc := applyRecorded_counts us zeroBuckets i
    have hb := sumUtil_bounds us hus i
    have hz : (zeroBuckets i).nr_thps = 0 ∧ (zeroBuckets i).nr_zero_pages = 0 := ⟨rfl, rfl⟩
    constructor
    · rw [hc.1, hc.2, hz.1, hz.2]
      ring
    · rw [hc.2, hz.2]
      omega
  · intro us hus
    have hcnt := countIdx_total us hus
    have : ∀ i ∈ Finset.range THP_UTIL_BUCKET_NR,
        (applyRecorded zeroBuckets us i).nr_thps = (countIdx us i : Int) := by
      intro i _
      have hc := applyRecorded_counts us zeroBuckets i
      rw [hc.1]
      simp [zeroBuckets]
    rw [Finset.sum_congr rfl this, ← Nat.cast_sum, hcnt]

/-- Witness for `histogram_pass_invariant` at the start of a pass (empty
recorded list, no online pages). -/
theorem histogram_pass_invariant_witness :
    0 ≤ (applyRecorded zeroBuckets [(0, 1)] 0).nr_zero_pages :=
  ((histogram_pass_invariant (fun _ => none) 1024 ⟨zeroBuckets, some 0, 0, 0, 0⟩ []
      (by intro p hp; cases hp) rfl).2.2.1 [(0, 1)]
      (by
        intro p hp
        simp only [List.mem_singleton] at hp
        subst hp
        exact ⟨by norm_num [THP_UTIL_BUCKET_NR], by norm_num,
          by norm_num [HPAGE_PMD_NR]⟩) 0).2

/-- C10: the scan step's end-of-zone comparison is performed on the cursor
truncated to a 32-bit signed integer and converted back to `unsigned
long`: below `2^31` the compared value is the cursor itself, and for any
zone whose frames lie below `2^31` the test agrees with the untruncated
comparison for every cursor below `2^32`; cursors in `[2^31, 2^32)` are
compared as the huge value `pfn + (2^64 - 2^32)` instead of `pfn`. -/
theorem cursor_truncated_end_of_zone_test :
    (∀ pfn pfn_end : Nat, pfn < 2 ^ 32 → pfn_end ≤ 2 ^ 31 →
        (pfn_end ≤ scan_current pfn ↔ pfn_end ≤ pfn))
    ∧ (∀ pfn : Nat, pfn < 2 ^ 31 → scan_current pfn = pfn)
    ∧ (∀ pfn : Nat, 2 ^ 31 ≤ pfn → pfn < 2 ^ 32 →
        scan_current pfn = pfn + (2 ^ 64 - 2 ^ 32)) := by
  have key : ∀ pfn : Nat, pfn < 2 ^ 32 →
      scan_current pfn = if pfn < 2 ^ 31 then pfn else pfn + (2 ^ 64 - 2 ^ 32) := by
    intro pfn h
    simp only [scan_current, intToUL, toInt32, UL_MOD]
    have hm : pfn % 2 ^ 32 = pfn := Nat.mod_eq_of_lt h
    rw [hm]
    split_ifs with h1
    · push_cast
      omega
    · push_cast
      omega
  refine ⟨?_, ?_, ?_⟩
  · intro pfn pfn_end h1 h2
    rw [key pfn h1]
    split_ifs with h3
    · exact Iff.rfl
    · constructor
      · intro _; omega
      · intro _; omega
  · intro pfn h
    rw [key pfn (by omega)]
    exact if_pos h
  · intro pfn h1 h2
    rw [key pfn h2]
    exact if_neg (by omega)

/-- Witness for `cursor_truncated_end_of_zone_test` at the wrap boundary. -/
theorem cursor_truncated_end_of_zone_test_witness :
    scan_current (2 ^ 31) = 2 ^ 31 + (2 ^ 64 - 2 ^ 32) :=
  cursor_truncated_end_of_zone_test.2.2 (2 ^ 31) (by norm_num) (by norm_num)

end ThpUtilization
